import Mathlib

/-!
Verification of the `chrome-post-messages` messaging layer.

This file gives a shallow embedding, faithful to the TypeScript source, of:

* `ConnectionManager` (src/managers/connectionManager.ts): a JS object
  `Record<TabId, Record<ClientLayer, Port | undefined>>`.  JS objects
  distinguish a key that is *present with value `undefined`* from an *absent*
  key, so a per-tab record is modelled as an association list
  `List (ClientLayer × Option Port)`: an entry `(l, none)` is a present key
  holding `undefined`, while a missing entry is an absent key.  `Object.keys`
  enumerates present keys; key enumeration order is modelled as insertion
  order (for the outer numeric-keyed record JS would enumerate integer
  indices in ascending order; none of the verified properties depend on
  enumeration order, only on which handles are hit and how often).
* `ListenerManager` (src/managers/listenerManager.ts): a JS
  `Map<string, Set<listener>>`.  The unsubscribe closure returned by
  `subscribe` captures the `Set` *object*, so sets are modelled in a heap
  (`List (Nat × List ListenerId)` keyed by an allocation id) and the map
  stores set ids; the closure is a triple (type, set id, listener).
* `BaseBackgroundManager` (the hub) and `BaseClientManager` (the client),
  as explicit state machines whose events mirror the JS callbacks
  (`onConnect`, `onDisconnect`, the asynchronous `chrome.tabs.query`
  callback, `onMessage`).
* JavaScript `String.prototype.split(':')` and `Number(string)` coercion,
  executable at the character level (ECMAScript StringNumericLiteral:
  whitespace trimming, empty string to `0`, optional sign, `Infinity`,
  decimal with fraction/exponent, `0x`/`0o`/`0b` literals).  Values are kept
  as exact normalized fractions; IEEE-754 rounding and overflow to infinity
  of out-of-range literals are not modelled (no verified property depends
  on them).

Listeners and message payloads are opaque to the code, so they are modelled
by `Nat` identifiers; a listener's possible throwing is modelled by an
environment predicate `thr : ListenerId → Bool` passed to `notify`.
The host logger is a pure trace of log events.
-/

namespace ChromePostMessages

/-- Chrome runtime port: identity plus its channel `name`. -/
structure Port where
  id : Nat
  name : String
deriving DecidableEq

/-- Identifier of a listener callback (function identity). -/
abbrev ListenerId := Nat

/-- BaseMessage from src/managers/types.ts: a `type` tag and an opaque
payload (modelled as `Nat`, never inspected by the code). -/
structure BaseMessage where
  type : String
  data : Nat
deriving DecidableEq

/-- ClientLayer enum from src/managers/types.ts. -/
inductive ClientLayer
  | devtools
  | popup
  | options
deriving DecidableEq

/-- String value of a `ClientLayer` enum member. -/
def ClientLayer.toName : ClientLayer → String
  | .devtools => "devtools"
  | .popup => "popup"
  | .options => "options"

/-- Membership test `Object.values(ClientLayer).includes(s)`, returning the
matching member. -/
def clientLayerOfString (s : String) : Option ClientLayer :=
  if s = "devtools" then some .devtools
  else if s = "popup" then some .popup
  else if s = "options" then some .options
  else none

/-! ### Association-list primitives mirroring JS object / Map operations -/

/-- Property read `obj[k]`: first entry with the given key. -/
def lookupAssoc {κ β : Type} [DecidableEq κ] : List (κ × β) → κ → Option β
  | [], _ => none
  | (a, b) :: t, k => if a = k then some b else lookupAssoc t k

/-- Property write `obj[k] = v`: overwrite in place if the key is present,
otherwise append the new key (JS insertion order). -/
def setKey {κ β : Type} [DecidableEq κ] : List (κ × β) → κ → β → List (κ × β)
  | [], k, v => [(k, v)]
  | (a, b) :: t, k, v => if a = k then (a, v) :: t else (a, b) :: setKey t k v

/-- Update the value at a key if present; no-op on an absent key. -/
def updAssoc {κ β : Type} [DecidableEq κ] : List (κ × β) → κ → β → List (κ × β)
  | [], _, _ => []
  | (a, b) :: t, k, v => if a = k then (a, v) :: t else (a, b) :: updAssoc t k v

/-- Apply a function to the value at a key if present (JS
`obj[k].field = ...` style in-place mutation); no-op on an absent key. -/
def mapAssoc {κ β : Type} [DecidableEq κ] : List (κ × β) → κ → (β → β) → List (κ × β)
  | [], _, _ => []
  | (a, b) :: t, k, f => if a = k then (a, f b) :: t else (a, b) :: mapAssoc t k f

/-- Key deletion `delete obj[k]` / `map.delete(k)`. -/
def eraseAssoc {κ β : Type} [DecidableEq κ] : List (κ × β) → κ → List (κ × β)
  | [], _ => []
  | (a, b) :: t, k => if a = k then t else (a, b) :: eraseAssoc t k

/-! ### JavaScript `Number(string)` coercion -/

/-- Result of JS numeric coercion: `NaN`, signed infinity, or an exact
normalized fraction `num / den`. -/
inductive JsNum
  | nan
  | posInf
  | negInf
  | val (num : Int) (den : Nat)
deriving DecidableEq

/-- Normalize a fraction by the gcd so that equal JS numbers have equal
representations. -/
def mkVal (num : Int) (den : Nat) : JsNum :=
  if den = 0 then .nan
  else
    let g := Nat.gcd num.natAbs den
    .val (num / (g : Int)) (den / g)

/-- Whole-number value. -/
def intVal (n : Int) : JsNum := .val n 1

/-- Negation of a parsed unsigned numeric value (for a leading `-` sign). -/
def JsNum.neg : JsNum → JsNum
  | .nan => .nan
  | .posInf => .negInf
  | .negInf => .posInf
  | .val n d => .val (-n) d

/-- StrWhiteSpace characters (the ASCII ones plus NBSP; the remaining
Unicode space characters never occur in the verified inputs). -/
def isJsWs (c : Char) : Bool :=
  c = ' ' || c = '\t' || c = '\n' || c = '\r' ||
  c = (Char.ofNat 11) || c = (Char.ofNat 12) || c = (Char.ofNat 160)

/-- Decimal digit value. -/
def digitVal? (c : Char) : Option Nat :=
  if '0' ≤ c ∧ c ≤ '9' then some (c.toNat - '0'.toNat) else none

/-- Hexadecimal digit value. -/
def hexVal? (c : Char) : Option Nat :=
  if '0' ≤ c ∧ c ≤ '9' then some (c.toNat - '0'.toNat)
  else if 'a' ≤ c ∧ c ≤ 'f' then some (c.toNat - 'a'.toNat + 10)
  else if 'A' ≤ c ∧ c ≤ 'F' then some (c.toNat - 'A'.toNat + 10)
  else none

/-- Octal digit value. -/
def octVal? (c : Char) : Option Nat :=
  if '0' ≤ c ∧ c ≤ '7' then some (c.toNat - '0'.toNat) else none

/-- Binary digit value. -/
def binVal? (c : Char) : Option Nat :=
  if c = '0' then some 0 else if c = '1' then some 1 else none

/-- Value of a nonempty, all-valid digit string in the given base;
`none` otherwise. -/
def digitsVal (dv : Char → Option Nat) (base : Nat) (l : List Char) : Option Nat :=
  match l with
  | [] => none
  | _ =>
    l.foldl (fun acc c =>
      match acc, dv c with
      | some a, some d => some (a * base + d)
      | _, _ => none) (some 0)

/-- Exponent part `[eE][+-]?digits` (or nothing); `none` on a malformed
or trailing-garbage remainder. -/
def parseExponent (l : List Char) : Option Int :=
  match l with
  | [] => some 0
  | c :: rest =>
    if c = 'e' ∨ c = 'E' then
      match rest with
      | '+' :: ds => (digitsVal digitVal? 10 ds).map Int.ofNat
      | '-' :: ds => (digitsVal digitVal? 10 ds).map (fun n => -(n : Int))
      | ds => (digitsVal digitVal? 10 ds).map Int.ofNat
    else none

/-- StrUnsignedDecimalLiteral: `Infinity`, or decimal digits with optional
fraction and exponent.  Returns `none` when the characters are not a valid
literal. -/
def parseUnsignedDec (l : List Char) : Option JsNum :=
  if l = "Infinity".toList then some .posInf
  else
    let ip := l.takeWhile fun c => (digitVal? c).isSome
    let rest₁ := l.dropWhile fun c => (digitVal? c).isSome
    let ipVal := (digitsVal digitVal? 10 ip).getD 0
    match rest₁ with
    | '.' :: rest₂ =>
      let fp := rest₂.takeWhile fun c => (digitVal? c).isSome
      let rest₃ := rest₂.dropWhile fun c => (digitVal? c).isSome
      if ip = [] ∧ fp = [] then none
      else
        let fpVal := (digitsVal digitVal? 10 fp).getD 0
        (parseExponent rest₃).map fun e =>
          let mant : Nat := ipVal * 10 ^ fp.length + fpVal
          let ex : Int := e - (fp.length : Int)
          if 0 ≤ ex then intVal ((mant : Int) * (10 : Int) ^ ex.toNat)
          else mkVal (mant : Int) (10 ^ (-ex).toNat)
    | _ =>
      if ip = [] then none
      else
        (parseExponent rest₁).map fun e =>
          if 0 ≤ e then intVal ((ipVal : Int) * (10 : Int) ^ e.toNat)
          else mkVal (ipVal : Int) (10 ^ (-e).toNat)

/-- StringNumericLiteral after whitespace trimming: empty means `0`;
`0x`/`0o`/`0b` literals take no sign; otherwise an optional sign followed
by an unsigned decimal literal or `Infinity`. -/
def parseNumericLiteral (l : List Char) : JsNum :=
  match l with
  | [] => intVal 0
  | '0' :: x :: rest =>
    if x = 'x' ∨ x = 'X' then
      match digitsVal hexVal? 16 rest with
      | some n => intVal n
      | none => .nan
    else if x = 'o' ∨ x = 'O' then
      match digitsVal octVal? 8 rest with
      | some n => intVal n
      | none => .nan
    else if x = 'b' ∨ x = 'B' then
      match digitsVal binVal? 2 rest with
      | some n => intVal n
      | none => .nan
    else ((parseUnsignedDec l).getD .nan)
  | '+' :: rest => (parseUnsignedDec rest).getD .nan
  | '-' :: rest => ((parseUnsignedDec rest).map JsNum.neg).getD .nan
  | _ => (parseUnsignedDec l).getD .nan

/-- JavaScript `Number(s)` for a string argument. -/
def jsStringToNumber (s : String) : JsNum :=
  let l := ((s.toList.dropWhile isJsWs).reverse.dropWhile isJsWs).reverse
  parseNumericLiteral l

/-- JavaScript `Number(x)` where `x` is a string or `undefined`
(`Number(undefined)` is `NaN`). -/
def jsNumberOfOpt : Option String → JsNum
  | none => .nan
  | some s => jsStringToNumber s

/-- JavaScript `s.split(':')` (single-character separator): character-level
splitting; `"".split(':')` is `[""]` and a trailing separator yields a
trailing empty segment. -/
def splitColonChars : List Char → List Char → List String
  | [], acc => [String.mk acc.reverse]
  | c :: t, acc =>
    if c = ':' then String.mk acc.reverse :: splitColonChars t []
    else splitColonChars t (c :: acc)

/-- JavaScript `name.split(':')`. -/
def jsSplitColon (name : String) : List String :=
  splitColonChars name.toList []

/-! ### ConnectionManager (src/managers/connectionManager.ts) -/

/-- Per-tab record `Record<ClientLayer, Port | undefined>`: an entry
`(l, none)` is a present key holding `undefined`; an absent entry is an
absent key. -/
abbrev TabRecord := List (ClientLayer × Option Port)

/-- Tab ids are JS numbers (the code never stores `NaN`). -/
abbrev TabId := JsNum

/-- Connection registry `Record<TabId, Record<ClientLayer, Port | undefined>>`. -/
abbrev Connections := List (TabId × TabRecord)

/-- Record literal created by `addConnection` for a fresh tab: all three
layer keys present, each holding `undefined`. -/
def initTabRecord : TabRecord :=
  [(.devtools, none), (.popup, none), (.options, none)]

/-- ConnectionManager.addConnection: ensure the per-tab record exists
(initializing all layer keys to `undefined`), then assign the layer slot. -/
def addConnection (conns : Connections) (tabId : TabId) (layer : ClientLayer)
    (port : Port) : Connections :=
  let conns₁ :=
    if (lookupAssoc conns tabId).isNone then conns ++ [(tabId, initTabRecord)]
    else conns
  mapAssoc conns₁ tabId (fun r => setKey r layer (some port))

/-- ConnectionManager.removeConnection: `delete tabConnections[layer]`, then
delete the whole per-tab record when `Object.keys(tabConnections)` is empty;
no-op when the tab has no record. -/
def removeConnection (conns : Connections) (tabId : TabId)
    (layer : ClientLayer) : Connections :=
  match lookupAssoc conns tabId with
  | none => conns
  | some r =>
    let r' := eraseAssoc r layer
    if r'.length = 0 then eraseAssoc conns tabId
    else updAssoc conns tabId r'

/-- JS double index `connections[tabId]?.[layer]`: `undefined` both when the
key is absent and when it holds `undefined`. -/
def getConnection (conns : Connections) (tabId : TabId)
    (layer : ClientLayer) : Option Port :=
  ((lookupAssoc conns tabId).bind fun r => lookupAssoc r layer).join

/-- Well-formedness of a registry: no duplicate tab keys and no duplicate
layer keys inside a record (true of every JS object, where keys are unique). -/
def WFConnections (conns : Connections) : Prop :=
  (conns.map Prod.fst).Nodup ∧ ∀ e ∈ conns, ((e.2.map Prod.fst).Nodup)

instance (conns : Connections) : Decidable (WFConnections conns) :=
  inferInstanceAs (Decidable (_ ∧ _))

/-! ### BaseBackgroundManager.sendMessage (src/unnamed/part_001) -/

/-- Inner loop of `sendMessage` over one tab's record: iterate the chosen
layers (`[layer]` when given, else `Object.keys(layersRecord)`) and post on
each present port (`port?.postMessage(message)` skips `undefined`). -/
def recordPosts (r : TabRecord) (layer? : Option ClientLayer)
    (msg : BaseMessage) : List (Port × BaseMessage) :=
  let targetLayers := match layer? with
    | some l => [l]
    | none => r.map Prod.fst
  targetLayers.filterMap fun ly => ((lookupAssoc r ly).join).map fun p => (p, msg)

/-- Body of the outer `sendMessage` loop for one tab id: skip when the tab
has no record (`if (!layersRecord) continue`), else post per layer. -/
def tabPosts (conns : Connections) (layer? : Option ClientLayer)
    (msg : BaseMessage) (tid : TabId) : List (Port × BaseMessage) :=
  match lookupAssoc conns tid with
  | none => []
  | some r => recordPosts r layer? msg

/-- BaseBackgroundManager.sendMessage: the list of `postMessage` calls it
performs, in order.  The iterated tab ids are `[tabId]` when given, else
`Object.keys(allConnections).map(Number)` (the `Number` round trip is exact
for stored keys). -/
def sendMessagePosts (conns : Connections) (tabId? : Option TabId)
    (layer? : Option ClientLayer) (msg : BaseMessage) : List (Port × BaseMessage) :=
  let tabIds := match tabId? with
    | some t => [t]
    | none => conns.map Prod.fst
  tabIds.flatMap (tabPosts conns layer? msg)

/-- Registration triples of one tab record: the (layer, port) pairs whose
slot actually holds a port. -/
def recordTriples (r : TabRecord) : List (ClientLayer × Port) :=
  r.filterMap fun e => e.2.map fun p => (e.1, p)

/-- All (tabId, layer, port) registrations currently in the registry. -/
def registeredTriples (conns : Connections) : List (TabId × ClientLayer × Port) :=
  conns.flatMap fun e => (recordTriples e.2).map fun lp => (e.1, lp.1, lp.2)

/-- Addressing-mode predicate: a registration matches the selector when it
agrees with every given component. -/
def selMatches (tabId? : Option TabId) (layer? : Option ClientLayer)
    (x : TabId × ClientLayer × Port) : Bool :=
  (match tabId? with
   | none => true
   | some t => decide (x.1 = t)) &&
  (match layer? with
   | none => true
   | some l => decide (x.2.1 = l))

/-! ### BaseBackgroundManager connection handling (src/unnamed/part_001) -/

/-- BaseBackgroundManager.extractPortDetails: split the port name on `':'`,
take the first segment as the layer and the second (or `undefined`) through
`Number`; reject an unrecognized layer or a `NaN` tab id. -/
def extractPortDetails (name : String) : Option (ClientLayer × TabId) :=
  let parts := jsSplitColon name
  let layerStr := parts.headD ""
  let numericTabId := jsNumberOfOpt parts[1]?
  match clientLayerOfString layerStr with
  | none => none
  | some l => if numericTabId = .nan then none else some (l, numericTabId)

/-- Acceptance predicate written from the amended wording of the
channel-naming claim, independently of `extractPortDetails` (a refinement
reference, not a source translation): a name is accepted exactly when it has
at least two colon-separated segments, the first is a recognized role token,
and JS `Number` coercion of the second does not yield `NaN`; segments after
the second are ignored. -/
def amendedAccepts (name : String) : Bool :=
  match jsSplitColon name with
  | roleStr :: tabStr :: _ =>
    (clientLayerOfString roleStr).isSome &&
      decide (jsStringToNumber tabStr ≠ JsNum.nan)
  | _ => false

/-- Log events of the hub. -/
inductive HubLog
  | errInvalidPort (name : String)
  | portConnected (layer : ClientLayer) (tabId : TabId)
  | portDisconnected (layer : ClientLayer) (tabId : TabId)
deriving DecidableEq

/-- Hub state: the registry plus, per connected port, the attached
`onDisconnect` handler (which captured the parsed connection details) and
the ports carrying an attached `onMessage` handler. -/
structure HubState where
  conns : Connections
  handlers : List (Port × ClientLayer × TabId)
  msgPorts : List Port
  logs : List HubLog
deriving DecidableEq

/-- Initial hub state. -/
def hubInit : HubState := ⟨[], [], [], []⟩

/-- BaseBackgroundManager.handleConnection on an incoming port: reject and
log on a malformed name; otherwise register the port, log, and attach the
`onMessage` and `onDisconnect` handlers. -/
def hubConnect (s : HubState) (p : Port) : HubState :=
  match extractPortDetails p.name with
  | none => { s with logs := s.logs ++ [.errInvalidPort p.name] }
  | some (layer, tabId) =>
    { conns := addConnection s.conns tabId layer p
      handlers := s.handlers ++ [(p, layer, tabId)]
      msgPorts := s.msgPorts ++ [p]
      logs := s.logs ++ [.portConnected layer tabId] }

/-- Port disconnection on the hub: every `onDisconnect` handler attached for
this port fires, each calling `handlePortDisconnect` with its captured
details (log the disconnect, remove the connection). -/
def hubDisconnect (s : HubState) (p : Port) : HubState :=
  (s.handlers.filter fun h => h.1 = p).foldl
    (fun st h =>
      { st with
        logs := st.logs ++ [.portDisconnected h.2.1 h.2.2]
        conns := removeConnection st.conns h.2.2 h.2.1 })
    s

/-! ### ListenerManager (src/managers/listenerManager.ts) -/

/-- ListenerManager state.  `heap` holds the `Set` objects (insertion-ordered,
duplicate-free lists) keyed by an allocation id; `map` is the
`Map<string, setId>` (insertion-ordered); `next` is the allocation counter.
Sets are never deallocated: a Set removed from the map stays reachable
through any unsubscribe closure that captured it. -/
structure LMState where
  heap : List (Nat × List ListenerId)
  map : List (String × Nat)
  next : Nat
deriving DecidableEq

/-- Empty ListenerManager. -/
def lmInit : LMState := ⟨[], [], 0⟩

/-- Unsubscribe closure returned by `subscribe`: it captured the message
type, the `Set` object (by id) and the listener. -/
structure Unsub where
  type : String
  sid : Nat
  listener : ListenerId
deriving DecidableEq

/-- Dereference a captured `Set` object. -/
def getSet (s : LMState) (sid : Nat) : List ListenerId :=
  (lookupAssoc s.heap sid).getD []

/-- ListenerManager.subscribe: create the type's `Set` when missing, add the
listener (`Set.add` is a no-op on a member), and return the closure. -/
def subscribe (s : LMState) (type : String) (l : ListenerId) : LMState × Unsub :=
  let alloc :=
    match lookupAssoc s.map type with
    | some sid => (s, sid)
    | none =>
      ({ s with
          heap := s.heap ++ [(s.next, [])]
          map := s.map ++ [(type, s.next)]
          next := s.next + 1 }, s.next)
  let s₁ := alloc.1
  let sid := alloc.2
  let curr := getSet s₁ sid
  let curr' := if l ∈ curr then curr else curr ++ [l]
  ({ s₁ with heap := updAssoc s₁.heap sid curr' }, ⟨type, sid, l⟩)

/-- Invoke an unsubscribe closure: delete the listener from the captured
`Set`, then delete the *current* map entry for the captured type when that
set is now empty. -/
def runUnsub (s : LMState) (u : Unsub) : LMState :=
  let curr' := (getSet s u.sid).erase u.listener
  { s with
    heap := updAssoc s.heap u.sid curr'
    map := if curr'.length = 0 then eraseAssoc s.map u.type else s.map }

/-- ListenerManager.clear: `this.listeners.clear()` empties the `Map`
(captured `Set` objects survive in the heap). -/
def lmClear (s : LMState) : LMState :=
  { s with map := [] }

/-- Observable listener registry: each mapped type with the listeners of its
set, resolving set ids through the heap. -/
def lmObserve (s : LMState) : List (String × List ListenerId) :=
  s.map.map fun e => (e.1, getSet s e.2)

/-- Log events of a ListenerManager. -/
inductive LMLog
  | warnUnmatched (portName : Option String) (type : String)
  | listenerError (l : ListenerId)
deriving DecidableEq

/-- Result of `notify`: the (unchanged) state, the performed listener
invocations in order, and the emitted log events in order. -/
structure NotifyResult where
  state : LMState
  invocations : List (ListenerId × BaseMessage × Option Port)
  logs : List LMLog
deriving DecidableEq

/-- Dispatch loop of `notify`: invoke each listener in iteration order inside
`try`/`catch`; a throwing listener (per the environment `thr`) produces an
error log and the loop continues. -/
def notifyLoop (ls : List ListenerId) (m : BaseMessage) (sender : Option Port)
    (thr : ListenerId → Bool) : List (ListenerId × BaseMessage × Option Port) × List LMLog :=
  match ls with
  | [] => ([], [])
  | l :: t =>
    let rest := notifyLoop t m sender thr
    ((l, m, sender) :: rest.1,
     if thr l then .listenerError l :: rest.2 else rest.2)

/-- ListenerManager.notify: warn (with the sender port's name when present)
and return when the type has no `Set`; otherwise run the dispatch loop. -/
def notify (s : LMState) (m : BaseMessage) (sender : Option Port)
    (thr : ListenerId → Bool) : NotifyResult :=
  match lookupAssoc s.map m.type with
  | none => ⟨s, [], [.warnUnmatched (sender.map Port.name) m.type]⟩
  | some sid =>
    let r := notifyLoop (getSet s sid) m sender thr
    ⟨s, r.1, r.2⟩

/-! ### BaseClientManager (src/managers/baseClientManager.ts) -/

/-- Log events of a client manager. -/
inductive ClientLog
  | errNoTab (layer : ClientLayer)
  | initialized (layer : ClientLayer) (tabId : Nat)
  | portDisconnected (portName : String)
deriving DecidableEq

/-- Client state.  `port` is the channel handle (`null` initially);
`pending` the queued messages; `inflight` counts dispatched
`chrome.tabs.query` callbacks that have not run yet; `nextPort` generates
fresh port identities; `opened` records every channel ever opened;
`posts` records every `postMessage` call, in order. -/
structure ClientState where
  layer : ClientLayer
  port : Option Port
  pending : List BaseMessage
  inflight : Nat
  nextPort : Nat
  opened : List Port
  posts : List (Port × BaseMessage)
  lm : LMState
  logs : List ClientLog
deriving DecidableEq

/-- Freshly constructed client for a layer. -/
def clientInit (layer : ClientLayer) : ClientState :=
  ⟨layer, none, [], 0, 0, [], [], lmInit, []⟩

/-- BaseClientManager.initPort: return immediately when the handle exists;
otherwise dispatch a `chrome.tabs.query` whose callback has not run yet. -/
def initPort (s : ClientState) : ClientState :=
  if s.port.isSome then s else { s with inflight := s.inflight + 1 }

/-- BaseClientManager.sendMessage: queue and trigger `initPort` while the
handle is absent; post immediately otherwise. -/
def clientSend (s : ClientState) (m : BaseMessage) : ClientState :=
  match s.port with
  | none => initPort { s with pending := s.pending ++ [m] }
  | some p => { s with posts := s.posts ++ [(p, m)] }

/-- Sequence of `sendMessage` calls. -/
def clientSends (s : ClientState) (msgs : List BaseMessage) : ClientState :=
  msgs.foldl clientSend s

/-- The `chrome.tabs.query` callback, parameterized by the id of the active
tab the host reports (`none` when there is no tab; note `if (!tabId)` also
treats tab id `0` as missing).  On success it connects a fresh port named
`"<layer>:<tabId>"`, attaches the handlers, logs, and flushes the pending
queue onto the new port in order.  A callback can only run while one is in
flight. -/
def clientResolve (s : ClientState) (tab? : Option Nat) : ClientState :=
  if s.inflight = 0 then s
  else
    let s₁ := { s with inflight := s.inflight - 1 }
    match tab? with
    | none => { s₁ with logs := s₁.logs ++ [.errNoTab s₁.layer] }
    | some tabId =>
      if tabId = 0 then { s₁ with logs := s₁.logs ++ [.errNoTab s₁.layer] }
      else
        let p : Port := ⟨s₁.nextPort, s₁.layer.toName ++ ":" ++ toString tabId⟩
        { s₁ with
          port := some p
          nextPort := s₁.nextPort + 1
          opened := s₁.opened ++ [p]
          logs := s₁.logs ++ [.initialized s₁.layer tabId]
          posts := s₁.posts ++ s₁.pending.map fun m => (p, m)
          pending := [] }

/-- BaseClientManager.handlePortDisconnect: log, clear all local
subscriptions, reset the handle to `null` (the pending queue is untouched). -/
def clientDisconnect (s : ClientState) (portName : String) : ClientState :=
  { s with
    logs := s.logs ++ [.portDisconnected portName]
    lm := lmClear s.lm
    port := none }

/-! ### Association-list lemmas -/

section AssocLemmas

variable {κ β : Type} [DecidableEq κ]

theorem lookupAssoc_cons_self {t : List (κ × β)} {a : κ} {b : β} :
    lookupAssoc ((a, b) :: t) a = some b := by
  simp [lookupAssoc]

theorem lookupAssoc_cons_ne {t : List (κ × β)} {a k : κ} {b : β} (h : a ≠ k) :
    lookupAssoc ((a, b) :: t) k = lookupAssoc t k := by
  simp [lookupAssoc, h]

theorem setKey_cons_self {t : List (κ × β)} {a : κ} {b v : β} :
    setKey ((a, b) :: t) a v = (a, v) :: t := by
  simp [setKey]

theorem setKey_cons_ne {t : List (κ × β)} {a k : κ} {b v : β} (h : a ≠ k) :
    setKey ((a, b) :: t) k v = (a, b) :: setKey t k v := by
  simp [setKey, h]

theorem updAssoc_cons_self {t : List (κ × β)} {a : κ} {b v : β} :
    updAssoc ((a, b) :: t) a v = (a, v) :: t := by
  simp [updAssoc]

theorem updAssoc_cons_ne {t : List (κ × β)} {a k : κ} {b v : β} (h : a ≠ k) :
    updAssoc ((a, b) :: t) k v = (a, b) :: updAssoc t k v := by
  simp [updAssoc, h]

theorem eraseAssoc_cons_self {t : List (κ × β)} {a : κ} {b : β} :
    eraseAssoc ((a, b) :: t) a = t := by
  simp [eraseAssoc]

theorem eraseAssoc_cons_ne {t : List (κ × β)} {a k : κ} {b : β} (h : a ≠ k) :
    eraseAssoc ((a, b) :: t) k = (a, b) :: eraseAssoc t k := by
  simp [eraseAssoc, h]

theorem mapAssoc_cons_self {t : List (κ × β)} {a : κ} {b : β} {f : β → β} :
    mapAssoc ((a, b) :: t) a f = (a, f b) :: t := by
  simp [mapAssoc]

theorem mapAssoc_cons_ne {t : List (κ × β)} {a k : κ} {b : β} {f : β → β}
    (h : a ≠ k) :
    mapAssoc ((a, b) :: t) k f = (a, b) :: mapAssoc t k f := by
  simp [mapAssoc, h]

theorem lookupAssoc_eq_none {l : List (κ × β)} {k : κ} :
    lookupAssoc l k = none ↔ k ∉ l.map Prod.fst := by
  induction l with
  | nil => simp [lookupAssoc]
  | cons e t ih =>
    obtain ⟨a, b⟩ := e
    by_cases h : a = k
    · subst h; simp [lookupAssoc]
    · simp [lookupAssoc, h, ih, Ne.symm h]

theorem lookupAssoc_append_left {l₁ l₂ : List (κ × β)} {k : κ}
    (h : lookupAssoc l₁ k = none) :
    lookupAssoc (l₁ ++ l₂) k = lookupAssoc l₂ k := by
  induction l₁ with
  | nil => simp
  | cons e t ih =>
    obtain ⟨a, b⟩ := e
    by_cases hak : a = k
    · simp [lookupAssoc, hak] at h
    · simp only [lookupAssoc, hak, if_false, List.cons_append] at h ⊢
      exact ih h

theorem mapAssoc_append_left {l₁ l₂ : List (κ × β)} {k : κ} {f : β → β}
    (h : lookupAssoc l₁ k = none) :
    mapAssoc (l₁ ++ l₂) k f = l₁ ++ mapAssoc l₂ k f := by
  induction l₁ with
  | nil => simp
  | cons e t ih =>
    obtain ⟨a, b⟩ := e
    by_cases hak : a = k
    · simp [lookupAssoc, hak] at h
    · simp only [lookupAssoc, hak, if_false, List.cons_append, mapAssoc] at h ⊢
      simp [ih h]

theorem updAssoc_append_left {l₁ l₂ : List (κ × β)} {k : κ} {v : β}
    (h : lookupAssoc l₁ k = none) :
    updAssoc (l₁ ++ l₂) k v = l₁ ++ updAssoc l₂ k v := by
  induction l₁ with
  | nil => simp
  | cons e t ih =>
    obtain ⟨a, b⟩ := e
    by_cases hak : a = k
    · simp [lookupAssoc, hak] at h
    · simp only [lookupAssoc, hak, if_false, List.cons_append, updAssoc] at h ⊢
      simp [ih h]

theorem eraseAssoc_append_left {l₁ l₂ : List (κ × β)} {k : κ}
    (h : lookupAssoc l₁ k = none) :
    eraseAssoc (l₁ ++ l₂) k = l₁ ++ eraseAssoc l₂ k := by
  induction l₁ with
  | nil => simp
  | cons e t ih =>
    obtain ⟨a, b⟩ := e
    by_cases hak : a = k
    · simp [lookupAssoc, hak] at h
    · simp only [lookupAssoc, hak, if_false, List.cons_append, eraseAssoc] at h ⊢
      simp [ih h]

theorem lookupAssoc_setKey_self {l : List (κ × β)} {k : κ} {v : β} :
    lookupAssoc (setKey l k v) k = some v := by
  induction l with
  | nil => simp [setKey, lookupAssoc]
  | cons e t ih =>
    obtain ⟨a, b⟩ := e
    by_cases hak : a = k <;> simp [setKey, lookupAssoc, hak, ih]

theorem lookupAssoc_mapAssoc_self {l : List (κ × β)} {k : κ} {f : β → β} :
    lookupAssoc (mapAssoc l k f) k = (lookupAssoc l k).map f := by
  induction l with
  | nil => simp [mapAssoc, lookupAssoc]
  | cons e t ih =>
    obtain ⟨a, b⟩ := e
    by_cases hak : a = k <;> simp [mapAssoc, lookupAssoc, hak, ih]

theorem lookupAssoc_updAssoc_self {l : List (κ × β)} {k : κ} {v : β} :
    lookupAssoc (updAssoc l k v) k = (lookupAssoc l k).map fun _ => v := by
  induction l with
  | nil => simp [updAssoc, lookupAssoc]
  | cons e t ih =>
    obtain ⟨a, b⟩ := e
    by_cases hak : a = k <;> simp [updAssoc, lookupAssoc, hak, ih]

theorem lookupAssoc_eraseAssoc_self {l : List (κ × β)} {k : κ}
    (h : (l.map Prod.fst).Nodup) :
    lookupAssoc (eraseAssoc l k) k = none := by
  induction l with
  | nil => simp [eraseAssoc, lookupAssoc]
  | cons e t ih =>
    obtain ⟨a, b⟩ := e
    simp only [List.map_cons, List.nodup_cons] at h
    by_cases hak : a = k
    · subst hak
      simp only [eraseAssoc, if_pos rfl]
      exact lookupAssoc_eq_none.2 h.1
    · simp only [eraseAssoc, hak, if_false, lookupAssoc]
      exact ih h.2

theorem updAssoc_eq_of_lookup {l : List (κ × β)} {k : κ} {v : β}
    (h : lookupAssoc l k = some v) : updAssoc l k v = l := by
  induction l with
  | nil => simp [updAssoc]
  | cons e t ih =>
    obtain ⟨a, b⟩ := e
    by_cases hak : a = k
    · subst hak
      rw [lookupAssoc_cons_self, Option.some_inj] at h
      rw [updAssoc_cons_self, h]
    · rw [lookupAssoc_cons_ne hak] at h
      rw [updAssoc_cons_ne hak, ih h]

theorem eraseAssoc_eq_of_none {l : List (κ × β)} {k : κ}
    (h : lookupAssoc l k = none) : eraseAssoc l k = l := by
  induction l with
  | nil => simp [eraseAssoc]
  | cons e t ih =>
    obtain ⟨a, b⟩ := e
    by_cases hak : a = k
    · simp [lookupAssoc, hak] at h
    · simp only [lookupAssoc, hak, if_false] at h
      simp [eraseAssoc, hak, ih h]

theorem mapAssoc_map_fst {l : List (κ × β)} {k : κ} {f : β → β} :
    (mapAssoc l k f).map Prod.fst = l.map Prod.fst := by
  induction l with
  | nil => simp [mapAssoc]
  | cons e t ih =>
    obtain ⟨a, b⟩ := e
    by_cases hak : a = k <;> simp [mapAssoc, hak, ih]

theorem updAssoc_map_fst {l : List (κ × β)} {k : κ} {v : β} :
    (updAssoc l k v).map Prod.fst = l.map Prod.fst := by
  induction l with
  | nil => simp [updAssoc]
  | cons e t ih =>
    obtain ⟨a, b⟩ := e
    by_cases hak : a = k <;> simp [updAssoc, hak, ih]

theorem mem_map_fst_setKey {l : List (κ × β)} {k x : κ} {v : β}
    (h : x ∈ (setKey l k v).map Prod.fst) : x ∈ l.map Prod.fst ∨ x = k := by
  induction l with
  | nil => simpa [setKey] using h
  | cons e t ih =>
    obtain ⟨a, b⟩ := e
    by_cases hak : a = k
    · subst hak
      rw [setKey_cons_self, List.map_cons, List.mem_cons] at h
      rcases h with h | h
      · exact Or.inr h
      · exact Or.inl (List.mem_cons.2 (Or.inr h))
    · rw [setKey_cons_ne hak, List.map_cons, List.mem_cons] at h
      rcases h with h | h
      · exact Or.inl (List.mem_cons.2 (Or.inl h))
      · rcases ih h with h' | h'
        · exact Or.inl (List.mem_cons.2 (Or.inr h'))
        · exact Or.inr h'

theorem setKey_nodup_keys {l : List (κ × β)} {k : κ} {v : β}
    (h : (l.map Prod.fst).Nodup) : ((setKey l k v).map Prod.fst).Nodup := by
  induction l with
  | nil => simp [setKey]
  | cons e t ih =>
    obtain ⟨a, b⟩ := e
    simp only [List.map_cons, List.nodup_cons] at h
    by_cases hak : a = k
    · subst hak
      rw [setKey_cons_self, List.map_cons, List.nodup_cons]
      exact h
    · rw [setKey_cons_ne hak, List.map_cons, List.nodup_cons]
      refine ⟨fun hm => ?_, ih h.2⟩
      rcases mem_map_fst_setKey hm with h' | h'
      · exact h.1 h'
      · exact hak h'

theorem updAssoc_eq_of_none {l : List (κ × β)} {k : κ} {v : β}
    (h : lookupAssoc l k = none) : updAssoc l k v = l := by
  induction l with
  | nil => simp [updAssoc]
  | cons e t ih =>
    obtain ⟨a, b⟩ := e
    by_cases hak : a = k
    · subst hak
      rw [lookupAssoc_cons_self] at h
      exact absurd h (by simp)
    · rw [lookupAssoc_cons_ne hak] at h
      rw [updAssoc_cons_ne hak, ih h]

theorem lookupAssoc_mem {l : List (κ × β)} {k : κ} {v : β}
    (h : lookupAssoc l k = some v) : (k, v) ∈ l := by
  induction l with
  | nil => simp [lookupAssoc] at h
  | cons e t ih =>
    obtain ⟨a, b⟩ := e
    by_cases hak : a = k
    · subst hak
      rw [lookupAssoc_cons_self, Option.some_inj] at h
      exact List.mem_cons.2 (Or.inl (by rw [h]))
    · rw [lookupAssoc_cons_ne hak] at h
      exact List.mem_cons.2 (Or.inr (ih h))

theorem forall_snd_mapAssoc {l : List (κ × β)} {k : κ} {f : β → β}
    {P : β → Prop} (h : ∀ e ∈ l, P e.2) (hf : ∀ b, P b → P (f b)) :
    ∀ e ∈ mapAssoc l k f, P e.2 := by
  induction l with
  | nil => simp [mapAssoc]
  | cons e t ih =>
    obtain ⟨a, b⟩ := e
    by_cases hak : a = k
    · simp only [mapAssoc, hak, if_pos rfl]
      intro x hx
      rcases List.mem_cons.1 hx with h' | h'
      · subst h'; exact hf b (h (a, b) (by simp))
      · exact h x (by simp [h'])
    · simp only [mapAssoc, hak, if_false]
      intro x hx
      rcases List.mem_cons.1 hx with h' | h'
      · subst h'; exact h (a, b) (by simp)
      · exact ih (fun e he => h e (by simp [he])) x h'

end AssocLemmas

/-! ### List congruence helpers -/

theorem flatMap_congr_mem {α γ : Type} {l : List α} {f g : α → List γ}
    (h : ∀ a ∈ l, f a = g a) : l.flatMap f = l.flatMap g := by
  induction l with
  | nil => rfl
  | cons a t ih =>
    simp only [List.flatMap_cons]
    rw [h a (by simp), ih fun x hx => h x (by simp [hx])]

theorem filterMap_congr_mem {α γ : Type} {l : List α} {f g : α → Option γ}
    (h : ∀ a ∈ l, f a = g a) : l.filterMap f = l.filterMap g := by
  induction l with
  | nil => rfl
  | cons a t ih =>
    simp only [List.filterMap_cons]
    rw [h a (by simp), ih fun x hx => h x (by simp [hx])]

theorem filter_flatMap {α γ : Type} {l : List α} {f : α → List γ} {p : γ → Bool} :
    (l.flatMap f).filter p = l.flatMap fun a => (f a).filter p := by
  induction l with
  | nil => rfl
  | cons a t ih => simp [List.flatMap_cons, List.filter_append, ih]

theorem map_flatMap_eq {α γ δ : Type} {l : List α} {f : α → List γ} {g : γ → δ} :
    (l.flatMap f).map g = l.flatMap fun a => (f a).map g := by
  induction l with
  | nil => rfl
  | cons a t ih => simp [List.flatMap_cons, List.map_append, ih]

/-! ### Lemmas about sendMessage fanout (claim C1) -/

theorem recordTriples_fst_mem {r : TabRecord} {x : ClientLayer × Port}
    (h : x ∈ recordTriples r) : x.1 ∈ r.map Prod.fst := by
  induction r with
  | nil => simp [recordTriples] at h
  | cons e t ih =>
    obtain ⟨a, p?⟩ := e
    cases p? with
    | none =>
      simp only [recordTriples, List.filterMap_cons, Option.map_none] at h
      exact List.mem_cons.2 (Or.inr (ih h))
    | some p =>
      simp only [recordTriples, List.filterMap_cons, Option.map_some] at h
      rcases List.mem_cons.1 h with h' | h'
      · subst h'; simp
      · exact List.mem_cons.2 (Or.inr (ih h'))

theorem registeredTriples_fst_mem {conns : Connections}
    {x : TabId × ClientLayer × Port} (h : x ∈ registeredTriples conns) :
    x.1 ∈ conns.map Prod.fst := by
  induction conns with
  | nil => simp [registeredTriples] at h
  | cons e c ih =>
    simp only [registeredTriples, List.flatMap_cons, List.mem_append] at h
    rcases h with h | h
    · rcases List.mem_map.1 h with ⟨lp, _, hx⟩
      subst hx; simp
    · exact List.mem_cons.2 (Or.inr (ih h))

theorem optJoin_some {α : Type} (x : Option α) : (some x).join = x := rfl

theorem recordTriples_cons_some {a : ClientLayer} {p : Port} {t : TabRecord} :
    recordTriples ((a, some p) :: t) = (a, p) :: recordTriples t := by
  simp [recordTriples]

theorem recordTriples_cons_none {a : ClientLayer} {t : TabRecord} :
    recordTriples ((a, none) :: t) = recordTriples t := by
  simp [recordTriples]

theorem recordPosts_none (r : TabRecord) (msg : BaseMessage) :
    recordPosts r none msg =
      (r.map Prod.fst).filterMap fun ly =>
        ((lookupAssoc r ly).join).map fun p => (p, msg) := rfl

theorem recordPosts_some_toList (r : TabRecord) (l : ClientLayer)
    (msg : BaseMessage) :
    recordPosts r (some l) msg =
      (((lookupAssoc r l).join).map fun p => (p, msg)).toList := by
  cases hx : lookupAssoc r l with
  | none => simp [recordPosts, hx]
  | some p? => cases p? <;> simp [recordPosts, hx]

theorem recordPosts_none_eq {r : TabRecord} (h : (r.map Prod.fst).Nodup)
    (msg : BaseMessage) :
    recordPosts r none msg = (recordTriples r).map fun lp => (lp.2, msg) := by
  induction r with
  | nil => rfl
  | cons e t ih =>
    obtain ⟨a, p?⟩ := e
    simp only [List.map_cons, List.nodup_cons] at h
    have tail :
        (t.map Prod.fst).filterMap
            (fun ly => ((lookupAssoc ((a, p?) :: t) ly).join).map fun p => (p, msg)) =
          recordPosts t none msg := by
      rw [recordPosts_none]
      refine filterMap_congr_mem fun ly hly => ?_
      rw [lookupAssoc_cons_ne (fun hh => h.1 (by rw [hh]; exact hly))]
    cases p? with
    | none =>
      rw [recordPosts_none, List.map_cons, List.filterMap_cons, recordTriples_cons_none,
        lookupAssoc_cons_self, tail]
      simpa [optJoin_some] using ih h.2
    | some p =>
      rw [recordPosts_none, List.map_cons, List.filterMap_cons, recordTriples_cons_some,
        lookupAssoc_cons_self, tail]
      simp [optJoin_some, ih h.2]

theorem recordPosts_some_eq {r : TabRecord} (h : (r.map Prod.fst).Nodup)
    (l : ClientLayer) (msg : BaseMessage) :
    recordPosts r (some l) msg =
      ((recordTriples r).filter fun lp => decide (lp.1 = l)).map fun lp => (lp.2, msg) := by
  induction r with
  | nil => rfl
  | cons e t ih =>
    obtain ⟨a, p?⟩ := e
    simp only [List.map_cons, List.nodup_cons] at h
    by_cases hal : a = l
    · subst hal
      have hnil : (recordTriples t).filter (fun lp => decide (lp.1 = a)) = [] := by
        refine List.filter_eq_nil_iff.2 fun lp hlp => ?_
        simp only [decide_eq_true_eq]
        exact fun hh => h.1 (hh ▸ recordTriples_fst_mem hlp)
      rw [recordPosts_some_toList, lookupAssoc_cons_self]
      cases p? with
      | none =>
        rw [recordTriples_cons_none, hnil]
        simp [optJoin_some]
      | some p =>
        rw [recordTriples_cons_some, List.filter_cons_of_pos (by simp), hnil]
        simp [optJoin_some]
    · rw [recordPosts_some_toList, lookupAssoc_cons_ne hal]
      cases p? with
      | none =>
        rw [recordTriples_cons_none, ← recordPosts_some_toList]
        exact ih h.2
      | some p =>
        rw [recordTriples_cons_some, List.filter_cons_of_neg (by simp [hal]),
          ← recordPosts_some_toList]
        exact ih h.2

theorem WFConnections_cons {e : TabId × TabRecord} {conns : Connections} :
    WFConnections (e :: conns) ↔
      e.1 ∉ conns.map Prod.fst ∧ (e.2.map Prod.fst).Nodup ∧ WFConnections conns := by
  simp only [WFConnections, List.map_cons, List.nodup_cons, List.forall_mem_cons]
  tauto

theorem tagged_filter_none_sel {r : TabRecord} (hr : (r.map Prod.fst).Nodup)
    (a : TabId) (layer? : Option ClientLayer) (msg : BaseMessage) :
    (((recordTriples r).map fun lp => (a, lp.1, lp.2)).filter
        (selMatches none layer?)).map (fun x => (x.2.2, msg)) =
      recordPosts r layer? msg := by
  rw [List.filter_map, List.map_map]
  cases layer? with
  | none =>
    rw [recordPosts_none_eq hr]
    simp [selMatches, Function.comp_def]
  | some l =>
    rw [recordPosts_some_eq hr]
    simp [selMatches, Function.comp_def]

theorem tagged_filter_some_sel {r : TabRecord} (hr : (r.map Prod.fst).Nodup)
    (a : TabId) (layer? : Option ClientLayer) (msg : BaseMessage) :
    (((recordTriples r).map fun lp => (a, lp.1, lp.2)).filter
        (selMatches (some a) layer?)).map (fun x => (x.2.2, msg)) =
      recordPosts r layer? msg := by
  rw [List.filter_map, List.map_map]
  cases layer? with
  | none =>
    rw [recordPosts_none_eq hr]
    simp [selMatches, Function.comp_def]
  | some l =>
    rw [recordPosts_some_eq hr]
    simp [selMatches, Function.comp_def]

theorem tagged_filter_other_sel {r : TabRecord} {a t : TabId} (hat : a ≠ t)
    (layer? : Option ClientLayer) :
    ((recordTriples r).map fun lp => (a, lp.1, lp.2)).filter
        (selMatches (some t) layer?) = [] := by
  rw [List.filter_map]
  refine List.map_eq_nil_iff.mpr (List.filter_eq_nil_iff.2 fun lp _ => ?_)
  simp [selMatches, Function.comp_def, hat]

theorem tabIds_flatMap_tabPosts {conns : Connections}
    (h : (conns.map Prod.fst).Nodup) (layer? : Option ClientLayer)
    (msg : BaseMessage) :
    (conns.map Prod.fst).flatMap (tabPosts conns layer? msg) =
      conns.flatMap fun e => recordPosts e.2 layer? msg := by
  induction conns with
  | nil => rfl
  | cons e c ih =>
    obtain ⟨a, r⟩ := e
    simp only [List.map_cons, List.nodup_cons] at h
    rw [List.map_cons, List.flatMap_cons, List.flatMap_cons]
    have head : tabPosts ((a, r) :: c) layer? msg a = recordPosts r layer? msg := by
      simp [tabPosts, lookupAssoc_cons_self]
    have tail : (c.map Prod.fst).flatMap (tabPosts ((a, r) :: c) layer? msg) =
        (c.map Prod.fst).flatMap (tabPosts c layer? msg) := by
      refine flatMap_congr_mem fun k hk => ?_
      unfold tabPosts
      rw [lookupAssoc_cons_ne (fun hh => h.1 (by rw [hh]; exact hk))]
    rw [head, tail, ih h.2]

theorem registeredTriples_cons {e : TabId × TabRecord} {c : Connections} :
    registeredTriples (e :: c) =
      ((recordTriples e.2).map fun lp => (e.1, lp.1, lp.2)) ++ registeredTriples c := by
  simp [registeredTriples]

theorem filter_registeredTriples_not_mem {conns : Connections} {t : TabId}
    (h : t ∉ conns.map Prod.fst) (layer? : Option ClientLayer) :
    (registeredTriples conns).filter (selMatches (some t) layer?) = [] := by
  refine List.filter_eq_nil_iff.2 fun x hx => ?_
  have hx1 : x.1 ∈ conns.map Prod.fst := registeredTriples_fst_mem hx
  simp only [selMatches, Bool.and_eq_true, decide_eq_true_eq]
  exact fun hxx => h (hxx.1 ▸ hx1)

theorem tabPosts_some_eq {conns : Connections} (hwf : WFConnections conns)
    (t : TabId) (layer? : Option ClientLayer) (msg : BaseMessage) :
    tabPosts conns layer? msg t =
      ((registeredTriples conns).filter (selMatches (some t) layer?)).map
        fun x => (x.2.2, msg) := by
  induction conns with
  | nil => rfl
  | cons e c ih =>
    obtain ⟨a, r⟩ := e
    rw [WFConnections_cons] at hwf
    rw [registeredTriples_cons, List.filter_append, List.map_append]
    by_cases hat : a = t
    · subst hat
      have head : tabPosts ((a, r) :: c) layer? msg a = recordPosts r layer? msg := by
        simp [tabPosts, lookupAssoc_cons_self]
      rw [head, filter_registeredTriples_not_mem hwf.1 layer?,
        tagged_filter_some_sel hwf.2.1 a layer? msg]
      simp
    · have head : tabPosts ((a, r) :: c) layer? msg t = tabPosts c layer? msg t := by
        unfold tabPosts
        rw [lookupAssoc_cons_ne hat]
      rw [head, tagged_filter_other_sel hat layer?, ih hwf.2.2]
      simp

/-! ### Lemmas about the connection registry operations -/

theorem addConnection_absent {conns : Connections} {tid : TabId}
    {layer : ClientLayer} {p : Port} (h : lookupAssoc conns tid = none) :
    addConnection conns tid layer p =
      conns ++ [(tid, setKey initTabRecord layer (some p))] := by
  unfold addConnection
  rw [h]
  simp only [Option.isNone_none, if_true]
  rw [mapAssoc_append_left h, mapAssoc_cons_self]

theorem addConnection_present {conns : Connections} {tid : TabId}
    {layer : ClientLayer} {p : Port} {r : TabRecord}
    (h : lookupAssoc conns tid = some r) :
    addConnection conns tid layer p =
      mapAssoc conns tid fun r => setKey r layer (some p) := by
  unfold addConnection
  rw [h]
  simp

theorem removeConnection_absent {conns : Connections} {tid : TabId}
    {layer : ClientLayer} (h : lookupAssoc conns tid = none) :
    removeConnection conns tid layer = conns := by
  unfold removeConnection
  rw [h]

theorem removeConnection_present {conns : Connections} {tid : TabId}
    {layer : ClientLayer} {r : TabRecord} (h : lookupAssoc conns tid = some r) :
    removeConnection conns tid layer =
      if (eraseAssoc r layer).length = 0 then eraseAssoc conns tid
      else updAssoc conns tid (eraseAssoc r layer) := by
  unfold removeConnection
  rw [h]

theorem getConnection_addConnection_self {conns : Connections} {tid : TabId}
    {layer : ClientLayer} {p : Port} :
    getConnection (addConnection conns tid layer p) tid layer = some p := by
  cases hx : lookupAssoc conns tid with
  | none =>
    rw [addConnection_absent hx]
    simp [getConnection, lookupAssoc_append_left hx, lookupAssoc_cons_self,
      lookupAssoc_setKey_self, optJoin_some]
  | some r =>
    rw [addConnection_present hx]
    simp [getConnection, lookupAssoc_mapAssoc_self, hx,
      lookupAssoc_setKey_self, optJoin_some]

theorem wf_addConnection {conns : Connections} {tid : TabId}
    {layer : ClientLayer} {p : Port} (hwf : WFConnections conns) :
    WFConnections (addConnection conns tid layer p) := by
  cases hx : lookupAssoc conns tid with
  | none =>
    rw [addConnection_absent hx]
    constructor
    · rw [List.map_append]
      rw [List.nodup_append]
      refine ⟨hwf.1, by simp, ?_⟩
      intro x hx1 hx2
      simp only [List.map_cons, List.map_nil, List.mem_cons, List.not_mem_nil,
        or_false] at hx2
      exact lookupAssoc_eq_none.1 hx (hx2 ▸ hx1)
    · intro e he
      rcases List.mem_append.1 he with he | he
      · exact hwf.2 e he
      · simp only [List.mem_cons, List.not_mem_nil, or_false] at he
        subst he
        exact setKey_nodup_keys (by decide)
  | some r =>
    rw [addConnection_present hx]
    constructor
    · rw [mapAssoc_map_fst]
      exact hwf.1
    · exact forall_snd_mapAssoc (P := fun (b : TabRecord) => (b.map Prod.fst).Nodup)
        hwf.2 fun b hb => setKey_nodup_keys hb

theorem getConnection_removeConnection_self {conns : Connections} {tid : TabId}
    {layer : ClientLayer} (hwf : WFConnections conns) :
    getConnection (removeConnection conns tid layer) tid layer = none := by
  cases hx : lookupAssoc conns tid with
  | none =>
    rw [removeConnection_absent hx]
    simp [getConnection, hx]
  | some r =>
    have hr : (r.map Prod.fst).Nodup := hwf.2 (tid, r) (lookupAssoc_mem hx)
    rw [removeConnection_present hx]
    by_cases hlen : (eraseAssoc r layer).length = 0
    · rw [if_pos hlen]
      simp [getConnection, lookupAssoc_eraseAssoc_self hwf.1]
    · rw [if_neg hlen]
      simp [getConnection, lookupAssoc_updAssoc_self, hx,
        lookupAssoc_eraseAssoc_self hr]

/-! ### Lemmas about channel-name validation -/

theorem amendedAccepts_iff {name : String} :
    amendedAccepts name = true ↔ (extractPortDetails name).isSome := by
  unfold amendedAccepts extractPortDetails
  cases hp : jsSplitColon name with
  | nil => simp [jsNumberOfOpt, clientLayerOfString]
  | cons a rest =>
    cases rest with
    | nil =>
      simp only [List.headD_cons]
      cases hc : clientLayerOfString a <;> simp [jsNumberOfOpt]
    | cons b rest2 =>
      simp only [List.headD_cons]
      cases hc : clientLayerOfString a with
      | none => simp
      | some l =>
        by_cases hn : jsStringToNumber b = JsNum.nan <;>
          simp [jsNumberOfOpt, hn]

/-! ### Lemmas about the notify dispatch loop -/

theorem notifyLoop_fst {ls : List ListenerId} {m : BaseMessage}
    {sender : Option Port} {thr : ListenerId → Bool} :
    (notifyLoop ls m sender thr).1 = ls.map fun l => (l, m, sender) := by
  induction ls with
  | nil => rfl
  | cons l t ih => simp [notifyLoop, ih]

theorem notifyLoop_snd {ls : List ListenerId} {m : BaseMessage}
    {sender : Option Port} {thr : ListenerId → Bool} :
    (notifyLoop ls m sender thr).2 = (ls.filter thr).map LMLog.listenerError := by
  induction ls with
  | nil => rfl
  | cons l t ih =>
    by_cases hl : thr l
    · simp [notifyLoop, ih, List.filter_cons, hl]
    · simp [notifyLoop, ih, List.filter_cons, hl]

/-! ### Lemmas about the client state machine -/

theorem clientSends_of_port_none {s : ClientState} {msgs : List BaseMessage}
    (h : s.port = none) :
    clientSends s msgs =
      { s with pending := s.pending ++ msgs, inflight := s.inflight + msgs.length } := by
  induction msgs generalizing s with
  | nil => simp [clientSends]
  | cons m t ih =>
    have step : clientSend s m =
        { s with pending := s.pending ++ [m], inflight := s.inflight + 1 } := by
      unfold clientSend initPort
      rw [h]
      simp [h]
    have hstep : (clientSend s m).port = none := by
      rw [step]
      exact h
    show clientSends (clientSend s m) t = _
    rw [ih hstep, step]
    simp
    omega

/-! ### Claim theorems -/

theorem hubDisconnect_conns (s : HubState) (p : Port) :
    (hubDisconnect s p).conns =
      (s.handlers.filter fun h => h.1 = p).foldl
        (fun c h => removeConnection c h.2.2 h.2.1) s.conns := by
  unfold hubDisconnect
  generalize s.handlers.filter (fun h => h.1 = p) = l
  induction l generalizing s with
  | nil => rfl
  | cons h t ih => simpa using ih _

/-- Claim C1: `sendMessage` implements the four addressing modes exactly.
For every well-formed registry state, selector and message, the list of
`postMessage` calls performed equals the registrations that match the
selector (all of them for an empty selector, those of the target when only
`targetId` is given, those of the role across all targets when only `role`
is given, the single slot when both are given), each posted exactly once
with the message, and nothing else is posted; absent targets and absent
role slots contribute nothing. -/
theorem C1_sendMessage_addressing (conns : Connections)
    (hwf : WFConnections conns) (tabId? : Option TabId)
    (layer? : Option ClientLayer) (msg : BaseMessage) :
    sendMessagePosts conns tabId? layer? msg =
      ((registeredTriples conns).filter (selMatches tabId? layer?)).map
        fun x => (x.2.2, msg) := by
  cases tabId? with
  | some t =>
    show [t].flatMap (tabPosts conns layer? msg) = _
    rw [List.flatMap_cons]
    simp only [List.flatMap_nil, List.append_nil]
    exact tabPosts_some_eq hwf t layer? msg
  | none =>
    show (conns.map Prod.fst).flatMap (tabPosts conns layer? msg) = _
    rw [tabIds_flatMap_tabPosts hwf.1 layer? msg]
    simp only [registeredTriples]
    rw [filter_flatMap, map_flatMap_eq]
    refine flatMap_congr_mem fun e he => ?_
    exact (tagged_filter_none_sel (hwf.2 e he) e.1 layer? msg).symm

/-- Witness for C1 at a concrete two-target registry and the
target-only selector. -/
theorem C1_sendMessage_addressing_witness :
    WFConnections
      [(intVal 7, [(ClientLayer.popup, some ⟨1, "popup:7"⟩),
                   (ClientLayer.devtools, none)]),
       (intVal 2, [(ClientLayer.popup, some ⟨2, "popup:2"⟩)])] ∧
    sendMessagePosts
        [(intVal 7, [(ClientLayer.popup, some ⟨1, "popup:7"⟩),
                     (ClientLayer.devtools, none)]),
         (intVal 2, [(ClientLayer.popup, some ⟨2, "popup:2"⟩)])]
        (some (intVal 7)) none ⟨"m", 0⟩ =
      ((registeredTriples
          [(intVal 7, [(ClientLayer.popup, some ⟨1, "popup:7"⟩),
                       (ClientLayer.devtools, none)]),
           (intVal 2, [(ClientLayer.popup, some ⟨2, "popup:2"⟩)])]).filter
        (selMatches (some (intVal 7)) none)).map fun x => (x.2.2, ⟨"m", 0⟩) :=
  ⟨by decide, C1_sendMessage_addressing _ (by decide) _ _ _⟩

/-- Claim C4 counterexample: after `addConnection` for (5, popup) and
(5, devtools) followed by `removeConnection` of both pairs, the registry
still contains key 5 (holding a record with only the `options` key, absent),
contradicting the claim that key 5 is gone entirely. -/
theorem C4_counterexample :
    removeConnection (removeConnection
        (addConnection (addConnection [] (intVal 5) .popup ⟨1, "popup:5"⟩)
          (intVal 5) .devtools ⟨2, "devtools:5"⟩)
        (intVal 5) .popup) (intVal 5) .devtools =
      [(intVal 5, [(ClientLayer.options, none)])] ∧
    lookupAssoc (removeConnection (removeConnection
        (addConnection (addConnection [] (intVal 5) .popup ⟨1, "popup:5"⟩)
          (intVal 5) .devtools ⟨2, "devtools:5"⟩)
        (intVal 5) .popup) (intVal 5) .devtools) (intVal 5) ≠ none := by
  decide

/-- Claim C4 (amended): `removeConnection` deletes the role slot, but the
whole per-target record is deleted only when no role keys remain, and
`addConnection` initializes the record with all three role keys present
(holding `undefined`); hence after adding (5, popup) and (5, devtools) and
removing both, the registry still contains key 5 with a single absent
`options` slot.  Removing a non-existent key is a safe no-op. -/
theorem C4_remove_keeps_options (conns : Connections) (p1 p2 : Port)
    (h5 : lookupAssoc conns (intVal 5) = none) :
    removeConnection (removeConnection
        (addConnection (addConnection conns (intVal 5) .popup p1)
          (intVal 5) .devtools p2)
        (intVal 5) .popup) (intVal 5) .devtools =
      conns ++ [(intVal 5, [(ClientLayer.options, none)])] ∧
    ∀ (c : Connections) (tid : TabId) (ly : ClientLayer),
      lookupAssoc c tid = none → removeConnection c tid ly = c := by
  constructor
  · rw [addConnection_absent h5]
    have hr1 : setKey initTabRecord ClientLayer.popup (some p1) =
        [(ClientLayer.devtools, none), (ClientLayer.popup, some p1),
         (ClientLayer.options, none)] := by
      simp [initTabRecord, setKey]
    rw [hr1]
    have hl1 : lookupAssoc
        (conns ++ [(intVal 5,
          [(ClientLayer.devtools, none), (ClientLayer.popup, some p1),
           (ClientLayer.options, none)])]) (intVal 5) =
        some [(ClientLayer.devtools, none), (ClientLayer.popup, some p1),
          (ClientLayer.options, none)] := by
      rw [lookupAssoc_append_left h5, lookupAssoc_cons_self]
    rw [addConnection_present hl1, mapAssoc_append_left h5, mapAssoc_cons_self]
    have hr2 : setKey
        [(ClientLayer.devtools, none), (ClientLayer.popup, some p1),
         (ClientLayer.options, none)] ClientLayer.devtools (some p2) =
        [(ClientLayer.devtools, some p2), (ClientLayer.popup, some p1),
         (ClientLayer.options, none)] := by
      simp [setKey]
    rw [hr2]
    have hl2 : lookupAssoc
        (conns ++ [(intVal 5,
          [(ClientLayer.devtools, some p2), (ClientLayer.popup, some p1),
           (ClientLayer.options, none)])]) (intVal 5) =
        some [(ClientLayer.devtools, some p2), (ClientLayer.popup, some p1),
          (ClientLayer.options, none)] := by
      rw [lookupAssoc_append_left h5, lookupAssoc_cons_self]
    rw [removeConnection_present hl2]
    have he1 : eraseAssoc
        [(ClientLayer.devtools, some p2), (ClientLayer.popup, some p1),
         (ClientLayer.options, none)] ClientLayer.popup =
        [(ClientLayer.devtools, some p2), (ClientLayer.options, none)] := by
      simp [eraseAssoc]
    rw [he1]
    rw [if_neg (by simp)]
    rw [updAssoc_append_left h5, updAssoc_cons_self]
    have hl3 : lookupAssoc
        (conns ++ [(intVal 5,
          [(ClientLayer.devtools, some p2), (ClientLayer.options, none)])])
          (intVal 5) =
        some [(ClientLayer.devtools, some p2), (ClientLayer.options, none)] := by
      rw [lookupAssoc_append_left h5, lookupAssoc_cons_self]
    rw [removeConnection_present hl3]
    have he2 : eraseAssoc
        [(ClientLayer.devtools, some p2), (ClientLayer.options, none)]
          ClientLayer.devtools =
        [(ClientLayer.options, none)] := by
      simp [eraseAssoc]
    rw [he2]
    rw [if_neg (by simp)]
    rw [updAssoc_append_left h5, updAssoc_cons_self]
  · intro c tid ly h
    exact removeConnection_absent h

/-- Witness for the amended C4 starting from the empty registry. -/
theorem C4_remove_keeps_options_witness :
    removeConnection (removeConnection
        (addConnection (addConnection [] (intVal 5) .popup ⟨1, "a"⟩)
          (intVal 5) .devtools ⟨2, "b"⟩)
        (intVal 5) .popup) (intVal 5) .devtools =
      [] ++ [(intVal 5, [(ClientLayer.options, none)])] :=
  (C4_remove_keeps_options [] ⟨1, "a"⟩ ⟨2, "b"⟩ (by decide)).1

/-- Claim C2 counterexample: the channel name `"popup:"` has an empty
numeric part, which the claim says must be rejected; the hub nevertheless
registers the connection under (targetId 0, popup) — `Number("")` is `0`,
not `NaN` — and attaches its message handler, so its traffic is observed. -/
theorem C2_counterexample :
    getConnection (hubConnect hubInit ⟨1, "popup:"⟩).conns (intVal 0) .popup =
      some ⟨1, "popup:"⟩ ∧
    (hubConnect hubInit ⟨1, "popup:"⟩).msgPorts = [⟨1, "popup:"⟩] := by
  decide

/-- Claim C2 (amended): an incoming connection is registered (and its
message and disconnect handlers attached, with an info log) if and only if
the first colon-segment of its name is a recognized role token and JS
`Number` coercion of the second segment (missing segment giving `NaN`) does
not yield `NaN`; segments after the second are ignored, so empty (`0`),
negative, fractional, exponent and hex numeric parts are accepted.  Any
other name is rejected: an error is logged and the connection is never
registered and never observed. -/
theorem C2_channel_naming (s : HubState) (p : Port) :
    ((extractPortDetails p.name).isSome ↔ amendedAccepts p.name = true) ∧
    (∀ l t, extractPortDetails p.name = some (l, t) →
      getConnection (hubConnect s p).conns t l = some p ∧
      (hubConnect s p).handlers = s.handlers ++ [(p, l, t)] ∧
      (hubConnect s p).msgPorts = s.msgPorts ++ [p] ∧
      (hubConnect s p).logs = s.logs ++ [.portConnected l t]) ∧
    (extractPortDetails p.name = none →
      (hubConnect s p).conns = s.conns ∧
      (hubConnect s p).handlers = s.handlers ∧
      (hubConnect s p).msgPorts = s.msgPorts ∧
      (hubConnect s p).logs = s.logs ++ [.errInvalidPort p.name]) := by
  refine ⟨amendedAccepts_iff.symm, ?_, ?_⟩
  · intro l t hx
    refine ⟨?_, ?_, ?_, ?_⟩
    · show getConnection (hubConnect s p).conns t l = some p
      unfold hubConnect
      rw [hx]
      exact getConnection_addConnection_self
    · unfold hubConnect
      rw [hx]
    · unfold hubConnect
      rw [hx]
    · unfold hubConnect
      rw [hx]
  · intro hn
    unfold hubConnect
    rw [hn]
    exact ⟨rfl, rfl, rfl, rfl⟩

/-- Witness for the amended C2: the valid name `"popup:42"` registers under
(targetId 42, popup). -/
theorem C2_channel_naming_witness :
    getConnection (hubConnect hubInit ⟨1, "popup:42"⟩).conns (intVal 42)
        .popup = some ⟨1, "popup:42"⟩ ∧
    (hubConnect hubInit ⟨1, "popup:42"⟩).handlers =
      hubInit.handlers ++ [(⟨1, "popup:42"⟩, .popup, intVal 42)] ∧
    (hubConnect hubInit ⟨1, "popup:42"⟩).msgPorts =
      hubInit.msgPorts ++ [⟨1, "popup:42"⟩] ∧
    (hubConnect hubInit ⟨1, "popup:42"⟩).logs =
      hubInit.logs ++ [.portConnected .popup (intVal 42)] :=
  (C2_channel_naming hubInit ⟨1, "popup:42"⟩).2.1 ClientLayer.popup
    (intVal 42) (by decide)

/-- Claim C10: when a second port registers under the same (targetId, role)
key while the first is still connected, the first port's disconnect handler
(which captured the parsed details) stays attached; when the replaced first
port later disconnects, that handler removes the registry entry even though
the still-connected second port occupies it — a stale disconnect evicts a
live handle. -/
theorem C10_stale_disconnect_evicts (s : HubState) (p1 p2 : Port)
    (l : ClientLayer) (t : TabId)
    (hwf : WFConnections s.conns)
    (hx : extractPortDetails p1.name = some (l, t))
    (hname : p2.name = p1.name)
    (hfresh : ∀ h ∈ s.handlers, h.1 ≠ p1)
    (hne : p2 ≠ p1) :
    getConnection (hubConnect (hubConnect s p1) p2).conns t l = some p2 ∧
    (p1, l, t) ∈ (hubConnect (hubConnect s p1) p2).handlers ∧
    getConnection
        (hubDisconnect (hubConnect (hubConnect s p1) p2) p1).conns t l =
      none := by
  have hx2 : extractPortDetails p2.name = some (l, t) := by
    rw [hname]
    exact hx
  have hc2 : (hubConnect (hubConnect s p1) p2).conns =
      addConnection (addConnection s.conns t l p1) t l p2 := by
    simp [hubConnect, hx, hx2]
  have hh2 : (hubConnect (hubConnect s p1) p2).handlers =
      s.handlers ++ [(p1, l, t)] ++ [(p2, l, t)] := by
    simp [hubConnect, hx, hx2]
  have hfilter : ((s.handlers ++ [(p1, l, t)] ++ [(p2, l, t)]).filter
      fun h => h.1 = p1) = [(p1, l, t)] := by
    rw [List.filter_append, List.filter_append]
    have h0 : (s.handlers.filter fun h => h.1 = p1) = [] :=
      List.filter_eq_nil_iff.2 fun h hh => by simpa using hfresh h hh
    simp [h0, List.filter_cons, hne]
  refine ⟨?_, ?_, ?_⟩
  · rw [hc2]
    exact getConnection_addConnection_self
  · rw [hh2]
    simp
  · rw [hubDisconnect_conns, hh2, hc2, hfilter]
    simp only [List.foldl_cons, List.foldl_nil]
    exact getConnection_removeConnection_self (wf_addConnection (wf_addConnection hwf))

/-- Claim C3 counterexample: subscribe listener 0 to type `"t"`,
unsubscribe it (emptying and unmapping the type), subscribe fresh listener 1
to `"t"`, then invoke the first unsubscribe closure a second time: because
the closure still holds the first, now-empty `Set`, it deletes the map's
fresh entry for `"t"`, so the second invocation is not a no-op — listener
1's registration is destroyed. -/
theorem C3_counterexample :
    lmObserve (runUnsub (subscribe (runUnsub (subscribe lmInit "t" 0).1
        (subscribe lmInit "t" 0).2) "t" 1).1 (subscribe lmInit "t" 0).2) ≠
      lmObserve (subscribe (runUnsub (subscribe lmInit "t" 0).1
        (subscribe lmInit "t" 0).2) "t" 1).1 := by
  decide

/-- Claim C3 (amended): a second or later invocation of an unsubscribe
closure leaves the listener registry unchanged provided the listener is not
currently in the captured set (it was not re-subscribed into it) and either
the captured set is nonempty or the closure's type is unmapped — i.e. the
type's entry was not deleted and then recreated in between.  Without that
proviso a later call can evict a recreated entry for the type. -/
theorem C3_unsubscribe_second_noop (s : LMState) (u : Unsub)
    (h1 : u.listener ∉ getSet s u.sid)
    (h2 : getSet s u.sid ≠ [] ∨ lookupAssoc s.map u.type = none) :
    runUnsub s u = s := by
  have herase : (getSet s u.sid).erase u.listener = getSet s u.sid :=
    List.erase_of_not_mem h1
  have hheap : updAssoc s.heap u.sid ((getSet s u.sid).erase u.listener) =
      s.heap := by
    rw [herase]
    cases hx : lookupAssoc s.heap u.sid with
    | none => exact updAssoc_eq_of_none hx
    | some S =>
      have hS : getSet s u.sid = S := by simp [getSet, hx]
      rw [hS]
      exact updAssoc_eq_of_lookup hx
  have hmap : (if ((getSet s u.sid).erase u.listener).length = 0
      then eraseAssoc s.map u.type else s.map) = s.map := by
    rw [herase]
    rcases h2 with h2 | h2
    · rw [if_neg (by simpa using h2)]
    · by_cases hl : (getSet s u.sid).length = 0
      · rw [if_pos hl]
        exact eraseAssoc_eq_of_none h2
      · rw [if_neg hl]
  simp only [runUnsub]
  rw [hheap, hmap]

/-- Witness for the amended C3: a plain double unsubscribe with no
interleaved resubscription is a no-op the second time. -/
theorem C3_unsubscribe_second_noop_witness :
    runUnsub (runUnsub (subscribe lmInit "t" 0).1 (subscribe lmInit "t" 0).2)
        (subscribe lmInit "t" 0).2 =
      runUnsub (subscribe lmInit "t" 0).1 (subscribe lmInit "t" 0).2 :=
  C3_unsubscribe_second_noop _ _ (by decide) (by decide)

/-- Claim C5 counterexample: two `sendMessage` calls while the asynchronous
target-id resolution is still pending put two establishment attempts in
flight at once, and their two callbacks open two channels — establishment
is not idempotent during the in-flight window. -/
theorem C5_counterexample :
    (clientSend (clientSend (clientInit .popup) ⟨"a", 0⟩) ⟨"b", 1⟩).inflight
        = 2 ∧
    (clientResolve (clientResolve (clientSend (clientSend (clientInit .popup)
        ⟨"a", 0⟩) ⟨"b", 1⟩) (some 7)) (some 7)).opened.length = 2 := by
  decide

/-- Claim C5 (amended): establishment is guarded only by the presence of the
handle.  A `sendMessage` with the handle present starts nothing and posts
immediately; a `sendMessage` while the handle is absent always starts one
more establishment attempt (so n sends during the unresolved window put n
attempts in flight), and every successful resolution opens one further
channel. -/
theorem C5_establishment_not_idempotent (s : ClientState) (m : BaseMessage)
    (t : Nat) :
    (s.port = none →
      (clientSend s m).inflight = s.inflight + 1 ∧
      (clientSend s m).opened = s.opened ∧
      (clientSend s m).posts = s.posts) ∧
    (∀ p, s.port = some p →
      clientSend s m = { s with posts := s.posts ++ [(p, m)] }) ∧
    (s.inflight ≠ 0 → t ≠ 0 →
      (clientResolve s (some t)).opened.length = s.opened.length + 1 ∧
      (clientResolve s (some t)).inflight = s.inflight - 1) := by
  refine ⟨?_, ?_, ?_⟩
  · intro h
    refine ⟨?_, ?_, ?_⟩ <;> simp [clientSend, initPort, h]
  · intro p hp
    simp [clientSend, hp]
  · intro hi ht
    refine ⟨?_, ?_⟩ <;> simp [clientResolve, hi, ht]

/-- Witness for the amended C5: the first send on a fresh client starts one
establishment attempt. -/
theorem C5_establishment_not_idempotent_witness :
    (clientSend (clientInit .popup) ⟨"a", 0⟩).inflight =
        (clientInit .popup).inflight + 1 ∧
    (clientSend (clientInit .popup) ⟨"a", 0⟩).opened =
        (clientInit .popup).opened ∧
    (clientSend (clientInit .popup) ⟨"a", 0⟩).posts =
        (clientInit .popup).posts :=
  (C5_establishment_not_idempotent (clientInit .popup) ⟨"a", 0⟩ 7).1 rfl

theorem clientResolve_posts_of_pending_nil {s : ClientState}
    (h : s.pending = []) (o : Option Nat) :
    (clientResolve s o).posts = s.posts := by
  unfold clientResolve
  by_cases hi : s.inflight = 0
  · rw [if_pos hi]
  · rw [if_neg hi]
    cases o with
    | none => rfl
    | some t2 =>
      by_cases ht2 : t2 = 0 <;> simp [ht2, h]

/-- Claim C7: messages sent while no channel handle exists are queued in
order and nothing is posted; the first successful resolution posts exactly
the queued messages, in enqueue order, on the newly opened channel and
empties the queue; any further callback posts nothing more (the queue is
never replayed); and a send with an established handle posts immediately
with no queueing. -/
theorem C7_pending_flush (s : ClientState) (msgs : List BaseMessage) (t : Nat)
    (hport : s.port = none) (hmsgs : msgs ≠ []) (ht : t ≠ 0) :
    (clientSends s msgs).pending = s.pending ++ msgs ∧
    (clientSends s msgs).posts = s.posts ∧
    (clientSends s msgs).port = none ∧
    (clientResolve (clientSends s msgs) (some t)).posts =
      s.posts ++ (s.pending ++ msgs).map
        (fun m => ((⟨s.nextPort, s.layer.toName ++ ":" ++ toString t⟩ : Port), m)) ∧
    (clientResolve (clientSends s msgs) (some t)).pending = [] ∧
    (clientResolve (clientSends s msgs) (some t)).port =
      some ⟨s.nextPort, s.layer.toName ++ ":" ++ toString t⟩ ∧
    (∀ o, (clientResolve (clientResolve (clientSends s msgs) (some t)) o).posts =
      (clientResolve (clientSends s msgs) (some t)).posts) ∧
    (∀ (s₂ : ClientState) (q : Port) (m : BaseMessage), s₂.port = some q →
      clientSend s₂ m = { s₂ with posts := s₂.posts ++ [(q, m)] }) := by
  have hs' := @clientSends_of_port_none s msgs hport
  have hlen : msgs.length ≠ 0 := fun hh => hmsgs (List.length_eq_zero.1 hh)
  have hinf : ¬(s.inflight + msgs.length = 0) := by omega
  have h1 : (clientSends s msgs).pending = s.pending ++ msgs := by
    rw [hs']
  have h2 : (clientSends s msgs).posts = s.posts := by
    rw [hs']
  have h3 : (clientSends s msgs).port = none := by
    rw [hs']
    exact hport
  have h4 : (clientResolve (clientSends s msgs) (some t)).posts =
      s.posts ++ (s.pending ++ msgs).map
        (fun m => ((⟨s.nextPort, s.layer.toName ++ ":" ++ toString t⟩ : Port), m)) := by
    rw [hs']
    simp [clientResolve, hinf, ht]
  have h5 : (clientResolve (clientSends s msgs) (some t)).pending = [] := by
    rw [hs']
    simp [clientResolve, hinf, ht]
  have h6 : (clientResolve (clientSends s msgs) (some t)).port =
      some ⟨s.nextPort, s.layer.toName ++ ":" ++ toString t⟩ := by
    rw [hs']
    simp [clientResolve, hinf, ht]
  refine ⟨h1, h2, h3, h4, h5, h6, ?_, ?_⟩
  · intro o
    exact clientResolve_posts_of_pending_nil h5 o
  · intro s₂ q m hq
    simp [clientSend, hq]

/-- Witness for C7: three sends on a fresh devtools client, then a
successful resolution for tab 9. -/
theorem C7_pending_flush_witness :
    (clientSends (clientInit .devtools)
        ([⟨"a", 0⟩, ⟨"b", 1⟩, ⟨"c", 2⟩] : List BaseMessage)).pending =
      (clientInit .devtools).pending ++
        ([⟨"a", 0⟩, ⟨"b", 1⟩, ⟨"c", 2⟩] : List BaseMessage) ∧
    (clientResolve (clientSends (clientInit .devtools)
        ([⟨"a", 0⟩, ⟨"b", 1⟩, ⟨"c", 2⟩] : List BaseMessage)) (some 9)).posts =
      (clientInit .devtools).posts ++
        ((clientInit .devtools).pending ++
          ([⟨"a", 0⟩, ⟨"b", 1⟩, ⟨"c", 2⟩] : List BaseMessage)).map
          (fun m => ((⟨(clientInit .devtools).nextPort,
            (clientInit .devtools).layer.toName ++ ":" ++ toString 9⟩ : Port), m)) ∧
    (clientResolve (clientSends (clientInit .devtools)
        ([⟨"a", 0⟩, ⟨"b", 1⟩, ⟨"c", 2⟩] : List BaseMessage)) (some 9)).pending
      = [] := by
  obtain ⟨h1, h2, h3, h4, h5, h6, h7, h8⟩ :=
    C7_pending_flush (clientInit .devtools)
      ([⟨"a", 0⟩, ⟨"b", 1⟩, ⟨"c", 2⟩] : List BaseMessage) 9
      rfl (by decide) (by decide)
  exact ⟨h1, h4, h5⟩

/-- Claim C6: when a message's type has subscribers, `notify` invokes every
subscriber in registration order with the same (message, sender) arguments;
a throwing subscriber is caught individually and logged as an error, the
remaining subscribers still run, nothing propagates to the caller, and the
registry is unchanged. -/
theorem C6_notify_isolation (s : LMState) (m : BaseMessage)
    (sender : Option Port) (thr : ListenerId → Bool) (sid : Nat)
    (hsid : lookupAssoc s.map m.type = some sid)
    (_hne : getSet s sid ≠ []) :
    (notify s m sender thr).invocations =
      (getSet s sid).map (fun l => (l, m, sender)) ∧
    (notify s m sender thr).logs =
      ((getSet s sid).filter thr).map LMLog.listenerError ∧
    (notify s m sender thr).state = s := by
  unfold notify
  rw [hsid]
  exact ⟨notifyLoop_fst, notifyLoop_snd, rfl⟩

/-- Witness for C6: two subscribers on type `"t"`, the first of which
throws; both are invoked and only the first is logged as an error. -/
theorem C6_notify_isolation_witness :
    (notify (subscribe (subscribe lmInit "t" 0).1 "t" 1).1 ⟨"t", 9⟩
        (some ⟨5, "popup:1"⟩) (fun l => decide (l = 0))).invocations =
      (getSet (subscribe (subscribe lmInit "t" 0).1 "t" 1).1 0).map
        (fun l => (l, ⟨"t", 9⟩, some ⟨5, "popup:1"⟩)) ∧
    (notify (subscribe (subscribe lmInit "t" 0).1 "t" 1).1 ⟨"t", 9⟩
        (some ⟨5, "popup:1"⟩) (fun l => decide (l = 0))).logs =
      ((getSet (subscribe (subscribe lmInit "t" 0).1 "t" 1).1 0).filter
        (fun l => decide (l = 0))).map LMLog.listenerError ∧
    (notify (subscribe (subscribe lmInit "t" 0).1 "t" 1).1 ⟨"t", 9⟩
        (some ⟨5, "popup:1"⟩) (fun l => decide (l = 0))).state =
      (subscribe (subscribe lmInit "t" 0).1 "t" 1).1 :=
  C6_notify_isolation (subscribe (subscribe lmInit "t" 0).1 "t" 1).1
    ⟨"t", 9⟩ (some ⟨5, "popup:1"⟩) (fun l => decide (l = 0)) 0
    (by decide) (by decide)

/-- Claim C8: when a message's type has no subscribers, `notify` returns
normally with exactly one warning log (carrying the sender's channel name
when present), performs no invocation, and leaves the registry unchanged. -/
theorem C8_notify_unmatched (s : LMState) (m : BaseMessage)
    (sender : Option Port) (thr : ListenerId → Bool)
    (h : lookupAssoc s.map m.type = none) :
    notify s m sender thr =
      ⟨s, [], [.warnUnmatched (sender.map Port.name) m.type]⟩ := by
  unfold notify
  rw [h]

/-- Witness for C8: an unmatched type on the empty registry warns once with
the sender's name. -/
theorem C8_notify_unmatched_witness :
    notify lmInit ⟨"x", 0⟩ (some ⟨3, "popup:1"⟩) (fun _ => false) =
      ⟨lmInit, [], [.warnUnmatched (some "popup:1") "x"]⟩ :=
  C8_notify_unmatched lmInit ⟨"x", 0⟩ (some ⟨3, "popup:1"⟩) (fun _ => false)
    (by decide)

/-- Claim C9: on disconnect the client clears every local subscription and
resets the handle, so nothing survives into a reconnect; a subsequent send
queues the message and starts a fresh establishment attempt. -/
theorem C9_disconnect_clears (s : ClientState) (p : Port)
    (_hp : s.port = some p) :
    (clientDisconnect s p.name).lm.map = [] ∧
    lmObserve (clientDisconnect s p.name).lm = [] ∧
    (clientDisconnect s p.name).port = none ∧
    (clientDisconnect s p.name).pending = s.pending ∧
    ∀ m, (clientSend (clientDisconnect s p.name) m).pending =
        (clientDisconnect s p.name).pending ++ [m] ∧
      (clientSend (clientDisconnect s p.name) m).inflight =
        (clientDisconnect s p.name).inflight + 1 := by
  refine ⟨rfl, ?_, rfl, rfl, ?_⟩
  · simp [lmObserve, clientDisconnect, lmClear]
  · intro m
    constructor <;> simp [clientSend, clientDisconnect, initPort]

/-- Witness for C9 on a client that established its channel for tab 7. -/
theorem C9_disconnect_clears_witness :
    (clientDisconnect (clientResolve (clientSend (clientInit .popup)
        ⟨"a", 0⟩) (some 7)) (Port.mk 0 ("popup" ++ ":" ++ "7")).name).lm.map
      = [] ∧
    (clientDisconnect (clientResolve (clientSend (clientInit .popup)
        ⟨"a", 0⟩) (some 7)) (Port.mk 0 ("popup" ++ ":" ++ "7")).name).port
      = none ∧
    (clientSend (clientDisconnect (clientResolve (clientSend
        (clientInit .popup) ⟨"a", 0⟩) (some 7))
        (Port.mk 0 ("popup" ++ ":" ++ "7")).name) ⟨"b", 1⟩).inflight =
      (clientDisconnect (clientResolve (clientSend (clientInit .popup)
        ⟨"a", 0⟩) (some 7)) (Port.mk 0 ("popup" ++ ":" ++ "7")).name).inflight
        + 1 := by
  obtain ⟨h1, h2, h3, h4, h5⟩ := C9_disconnect_clears
    (clientResolve (clientSend (clientInit .popup) ⟨"a", 0⟩) (some 7))
    (Port.mk 0 ("popup" ++ ":" ++ "7")) (by decide)
  exact ⟨h1, h3, (h5 ⟨"b", 1⟩).2⟩

/-- Witness for C10: two ports named `"popup:3"` on the empty hub. -/
theorem C10_stale_disconnect_evicts_witness :
    getConnection (hubConnect (hubConnect hubInit ⟨1, "popup:3"⟩)
        ⟨2, "popup:3"⟩).conns (intVal 3) .popup = some ⟨2, "popup:3"⟩ ∧
    ((⟨1, "popup:3"⟩ : Port), ClientLayer.popup, intVal 3) ∈
      (hubConnect (hubConnect hubInit ⟨1, "popup:3"⟩) ⟨2, "popup:3"⟩).handlers ∧
    getConnection (hubDisconnect (hubConnect (hubConnect hubInit
        ⟨1, "popup:3"⟩) ⟨2, "popup:3"⟩) ⟨1, "popup:3"⟩).conns
        (intVal 3) .popup = none :=
  C10_stale_disconnect_evicts hubInit ⟨1, "popup:3"⟩ ⟨2, "popup:3"⟩
    ClientLayer.popup (intVal 3) (by decide) (by decide) (by decide)
    (by decide) (by decide)

end ChromePostMessages
